import Mathlib

/-!
Shallow embedding of the core of the `retro-hash-report` ROM scanner
(`src/scanner.js` and its later revision): extension classification,
the MD5 hashing engine, the three archive adapters (zip / 7z / rar),
the scan orchestrator's record construction and scratch-directory
lifecycle, and the console-suggestion heuristic.

Filesystem and process effects are modelled by explicit environments
that record the outcome of every external call (stat results, bytes
delivered by reads, archive listings, extraction failures), so that
each code path of the JavaScript source corresponds to a branch of a
pure Lean function.
-/

namespace RetroHash

/-! ### JavaScript string primitives (lowercase, trim, includes, split) -/

/-- ASCII lowercase of a single character, as `String.prototype.toLowerCase`
acts on the ASCII range (all strings in this code base are ASCII). -/
def lowerChar (c : Char) : Char :=
  if 'A' ≤ c ∧ c ≤ 'Z' then Char.ofNat (c.toNat + 32) else c

/-- Lowercase a character list. -/
def lowerList (cs : List Char) : List Char :=
  cs.map lowerChar

/-- Whitespace characters recognised by `trim` and the `\s` regex class
(restricted to the ASCII whitespace actually occurring in this code base). -/
def isWsChar (c : Char) : Bool :=
  c = ' ' || c = '\t' || c = '\n' || c = '\r'

/-- `String.prototype.trim`: drop whitespace from both ends. -/
def trimList (cs : List Char) : List Char :=
  ((cs.dropWhile isWsChar).reverse.dropWhile isWsChar).reverse

/-- Does `hay` start with `needle`? (`String.prototype.startsWith`). -/
def leadsList : List Char → List Char → Bool
  | [], _ => true
  | _ :: _, [] => false
  | a :: as, b :: bs => a = b && leadsList as bs

/-- `hay.includes(needle)` of JavaScript: `needle` occurs contiguously in `hay`. -/
def hasSub (needle : List Char) : List Char → Bool
  | [] => leadsList needle []
  | c :: t => leadsList needle (c :: t) || hasSub needle t

/-- Split on runs of whitespace, as `split(/\s+/)` behaves on trimmed input
(accumulator holds the current word reversed). -/
def wordsAux : List Char → List Char → List (List Char)
  | [], cur => if cur.isEmpty then [] else [cur.reverse]
  | c :: rest, cur =>
    if isWsChar c then
      if cur.isEmpty then wordsAux rest [] else cur.reverse :: wordsAux rest []
    else wordsAux rest (c :: cur)

/-- The whitespace-separated words of a character list. -/
def wordsList (cs : List Char) : List (List Char) :=
  wordsAux cs []

/-- `s.split(/\s+/)[0]` on a trimmed string: the first word, `[]` when empty. -/
def firstWord (cs : List Char) : List Char :=
  (wordsList cs).headD []

/-! ### `path.extname` / `path.basename` (posix) -/

/-- The last path component: everything after the final `/`
(`path.basename` for the inputs arising here, which do not end in a slash). -/
def afterLastSep (cs : List Char) : List Char :=
  cs.foldl (fun acc c => if c = '/' then [] else acc ++ [c]) []

/-- `path.basename` as a string. -/
def basenameStr (s : String) : String :=
  String.mk (afterLastSep s.toList)

/-- `path.extname` (posix): the extension from the last dot of the last path
component, `""` when there is no dot, when the only dot is the leading
character of the component, or when the component is `".."`. -/
def extnameList (cs : List Char) : List Char :=
  let base := afterLastSep cs
  let rev := base.reverse
  let pre := rev.takeWhile (fun c => c ≠ '.')
  if pre.length = rev.length then []
  else if pre.length + 1 = base.length then []
  else if base = ['.', '.'] then []
  else '.' :: pre.reverse

/-- `path.extname(filename).toLowerCase()`, the classification key used
throughout the scanner. -/
def extLower (s : String) : String :=
  String.mk (lowerList (extnameList s.toList))

/-! ### Extension classifier -/

/-- `ROM_EXTENSIONS`: the ROM extension set of `scanner.js`. -/
def ROM_EXTENSIONS : List String :=
  [".nes", ".fds", ".sfc", ".smc", ".gb", ".gbc", ".gba", ".nds",
   ".n64", ".z64", ".v64", ".gcm", ".gcz", ".rvz", ".wbfs", ".wad",
   ".wux", ".wud", ".3ds", ".cia", ".nsp", ".xci",
   ".md", ".smd", ".gen", ".bin", ".gg", ".sms", ".32x", ".sg",
   ".gdi", ".cdi", ".chd",
   ".iso", ".cue", ".img", ".cso", ".pbp", ".pkg", ".p3t",
   ".a26", ".a78", ".lnx", ".jag", ".j64",
   ".pce", ".ngp", ".ngc", ".ws", ".wsc", ".col", ".int", ".vec",
   ".min", ".vb", ".rom"]

/-- `ARCHIVE_EXTENSIONS`: archive container extensions. -/
def ARCHIVE_EXTENSIONS : List String :=
  [".zip", ".7z", ".rar"]

/-- `Set.prototype.has` over a list of strings. -/
def memStr (s : String) (l : List String) : Bool :=
  l.any (fun t => s = t)

/-- `isRomFile`: membership of the lowercased final extension in `ROM_EXTENSIONS`. -/
def isRomFile (filename : String) : Bool :=
  memStr (extLower filename) ROM_EXTENSIONS

/-- `isArchiveFile`: membership of the lowercased final extension in
`ARCHIVE_EXTENSIONS`. -/
def isArchiveFile (filename : String) : Bool :=
  memStr (extLower filename) ARCHIVE_EXTENSIONS

/-- The three classes a filename can fall into. -/
inductive FileClass where
  | rom
  | archive
  | ignored
deriving DecidableEq

/-- `classify` of the specification: ROM wins, then archive, else ignored
(the two underlying extension sets are disjoint, so the order is immaterial). -/
def classify (filename : String) : FileClass :=
  if isRomFile filename then .rom
  else if isArchiveFile filename then .archive
  else .ignored

/-! ### Console suggestion heuristic (`suggestConsole`, `matchConsoleName`) -/

/-- A console (platform) record from the RetroAchievements API: `{id, name}`. -/
structure Console where
  id : Nat
  name : String
deriving DecidableEq

/-- `EXTENSION_TO_CONSOLE`: extension → candidate console-name list. -/
def EXTENSION_TO_CONSOLE : List (String × List String) :=
  [(".nes", ["Nintendo Entertainment System", "NES"]),
   (".fds", ["Nintendo Entertainment System", "NES"]),
   (".sfc", ["Super Nintendo Entertainment System", "SNES"]),
   (".smc", ["Super Nintendo Entertainment System", "SNES"]),
   (".gb", ["Game Boy", "GB"]),
   (".gbc", ["Game Boy Color", "GBC"]),
   (".gba", ["Game Boy Advance", "GBA"]),
   (".nds", ["Nintendo DS", "NDS"]),
   (".n64", ["Nintendo 64", "N64"]),
   (".z64", ["Nintendo 64", "N64"]),
   (".v64", ["Nintendo 64", "N64"]),
   (".gcm", ["Gamecube", "GameCube", "NGC"]),
   (".gcz", ["Gamecube", "GameCube", "NGC"]),
   (".rvz", ["Gamecube", "GameCube", "NGC"]),
   (".wbfs", ["Wii", "Nintendo Wii"]),
   (".wad", ["Wii", "Nintendo Wii"]),
   (".wux", ["Wii U", "Nintendo Wii U"]),
   (".wud", ["Wii U", "Nintendo Wii U"]),
   (".3ds", ["Nintendo 3DS", "3DS"]),
   (".cia", ["Nintendo 3DS", "3DS"]),
   (".nsp", ["Nintendo Switch", "Switch"]),
   (".xci", ["Nintendo Switch", "Switch"]),
   (".md", ["Mega Drive", "Genesis"]),
   (".smd", ["Mega Drive", "Genesis"]),
   (".gen", ["Mega Drive", "Genesis"]),
   (".bin", ["Mega Drive", "Genesis", "Saturn"]),
   (".gg", ["Game Gear", "GG"]),
   (".sms", ["Master System", "SMS"]),
   (".32x", ["32X", "Sega 32X"]),
   (".sg", ["SG-1000", "SG1000"]),
   (".gdi", ["Dreamcast", "Sega Dreamcast"]),
   (".cdi", ["Dreamcast", "Sega Dreamcast"]),
   (".iso", ["PlayStation", "PSX", "PlayStation Portable", "PSP",
             "PlayStation 2", "PS2"]),
   (".cue", ["PlayStation", "PSX", "Saturn"]),
   (".chd", ["PlayStation", "PSX", "Dreamcast", "Saturn"]),
   (".img", ["PlayStation 2", "PS2"]),
   (".cso", ["PlayStation Portable", "PSP"]),
   (".pbp", ["PlayStation Portable", "PSP"]),
   (".a26", ["Atari 2600", "A26"]),
   (".a78", ["Atari 7800", "A78"]),
   (".lnx", ["Atari Lynx", "Lynx"]),
   (".jag", ["Atari Jaguar", "Jaguar"]),
   (".j64", ["Atari Jaguar", "Jaguar"]),
   (".pce", ["TurboGrafx-16", "PC Engine"]),
   (".ngp", ["Neo Geo Pocket", "NGP"]),
   (".ngc", ["Neo Geo Pocket Color", "NGPC"]),
   (".ws", ["WonderSwan", "WS"]),
   (".wsc", ["WonderSwan Color", "WSC"]),
   (".col", ["ColecoVision", "CV"]),
   (".int", ["Intellivision", "INT"]),
   (".vec", ["Vectrex", "VEC"]),
   (".min", ["Pokemon Mini", "PM"]),
   (".vb", ["Virtual Boy", "VB"])]

/-- `matchConsoleName(consoleName, possibleNames)`: case-insensitive substring
match either way, or enough overlap between the significant (length > 2)
words of the two names. -/
def matchConsoleName (consoleName : String) (possibleNames : List String) : Bool :=
  let cn := trimList (lowerList consoleName.toList)
  possibleNames.any (fun pn =>
    let pl := trimList (lowerList pn.toList)
    hasSub pl cn || hasSub cn pl ||
      (let cw := (wordsList cn).filter (fun w => 2 < w.length)
       let pw := (wordsList pl).filter (fun w => 2 < w.length)
       let mw := cw.filter (fun w => pw.any (fun p => hasSub w p || hasSub p w))
       decide (0 < mw.length) && decide (min cw.length pw.length ≤ 2 * mw.length)))

/-- `folderKeywords`: folder-name patterns that might indicate a console. -/
def folderKeywords : List String :=
  ["nes", "nintendo entertainment system", "snes", "super nintendo",
   "super nintendo entertainment system", "n64", "nintendo 64", "gamecube",
   "game cube", "ngc", "gc", "wii", "wiiu", "wii u", "3ds", "nintendo 3ds",
   "switch", "nintendo switch", "gb", "game boy", "gbc", "game boy color",
   "gba", "game boy advance", "ds", "nintendo ds", "genesis", "mega drive",
   "megadrive", "sega", "master system", "sms", "game gear", "gg",
   "dreamcast", "saturn", "32x", "sega 32x", "playstation", "psx", "ps1",
   "ps2", "playstation 2", "psp", "playstation portable", "ps3",
   "playstation 3", "atari 2600", "a26", "atari 7800", "a78", "lynx",
   "jaguar", "turbografx", "pc engine", "pce", "neo geo", "ngp",
   "wonderswan", "colecovision", "intellivision", "vectrex"]

/-- The per-console test of the folder-name phase: direct substring match
between folder name and console name in either direction, or some keyword
occurring in the folder name that also occurs in the console name (or that
contains the console name's first word). -/
def folderMatches (folderName : List Char) (c : Console) : Bool :=
  let cn := trimList (lowerList c.name.toList)
  hasSub cn folderName || hasSub folderName cn ||
    folderKeywords.any (fun kw =>
      let k := kw.toList
      hasSub k folderName && (hasSub k cn || hasSub (firstWord cn) k))

/-- Step 1 of `suggestConsole`: match the lowercased leaf folder name of the
scan root against the console list; first satisfying console wins.
`path.basename(path.resolve(directory))` is modelled as the last path
component of `directory` (the scan roots arising here do not end in a
separator). -/
def folderPhase (directory : String) (consoles : List Console) : Option Console :=
  let folderName := lowerList (afterLastSep directory.toList)
  consoles.find? (fun c => folderMatches folderName c)

/-- One step of the extension tally: `Map.set(ext, (Map.get(ext) || 0) + 1)`,
preserving first-insertion order as a JavaScript `Map` does. -/
def bumpCount (acc : List (String × Nat)) (e : String) : List (String × Nat) :=
  if acc.any (fun p => p.1 = e) then
    acc.map (fun p => if p.1 = e then (p.1, p.2 + 1) else p)
  else acc ++ [(e, 1)]

/-- The most common extension: strictly larger counts win, so ties go to the
extension first inserted into the tally. -/
def mostCommonExt (counts : List (String × Nat)) : Option String :=
  (counts.foldl
    (fun best p =>
      match best with
      | none => if 0 < p.2 then some p else none
      | some q => if q.2 < p.2 then some p else some q)
    none).map Prod.fst

/-- Step 2 of `suggestConsole`: tally extensions of the discovered ROM
filenames, look the single most common one up in `EXTENSION_TO_CONSOLE`,
and return the first console fuzzily matching one of its candidate names.
An empty-string extension is falsy in JavaScript and yields `none`. -/
def extensionPhase (romFiles : List String) (consoles : List Console) : Option Console :=
  let counts := romFiles.foldl (fun acc f => bumpCount acc (extLower f)) []
  match mostCommonExt counts with
  | none => none
  | some ext =>
    if ext = "" then none
    else
      match (EXTENSION_TO_CONSOLE.find? (fun p => p.1 = ext)).map Prod.snd with
      | none => none
      | some possibleNames =>
        consoles.find? (fun c => matchConsoleName c.name possibleNames)

/-- `suggestConsole(directory, romFiles, consoles)`. `none` arguments model
JavaScript `null`/`undefined`; an empty `directory` string is falsy and
skips the folder-name phase. -/
def suggestConsole (directory : String) (romFiles : Option (List String))
    (consoles : Option (List Console)) : Option Console :=
  match romFiles, consoles with
  | some rs, some cs =>
    if rs.isEmpty || cs.isEmpty then none
    else
      match (if directory ≠ "" then folderPhase directory cs else none) with
      | some c => some c
      | none => extensionPhase rs cs
  | none, _ => none
  | some _, none => none

/-! ### Hashing engine (`calculateMD5`, later revision with dual read paths)

The engine is modelled over an environment recording the outcome of each
external interaction: the `fs.promises.stat` call, the bytes the reads
deliver, the chunk partition the stream produces, whether the underlying
read errors, and whether the wall clock passes the 30-minute mark before
the operation completes.  The MD5 compression itself is irrelevant to
every claim, so the digest is an arbitrary function `md5` of the byte
sequence absorbed by `hash.update` — exactly the interface
`crypto.createHash("md5")` presents. -/

/-- Buffer size chosen from the file size (the step function of the source). -/
def bufferSizeFor (fileSize : Nat) : Nat :=
  if 4 * 1024 * 1024 * 1024 < fileSize then 16 * 1024 * 1024
  else if 2 * 1024 * 1024 * 1024 < fileSize then 12 * 1024 * 1024
  else if 1024 * 1024 * 1024 < fileSize then 8 * 1024 * 1024
  else if 500 * 1024 * 1024 < fileSize then 4 * 1024 * 1024
  else if 100 * 1024 * 1024 < fileSize then 2 * 1024 * 1024
  else if 10 * 1024 * 1024 < fileSize then 1024 * 1024
  else 64 * 1024

/-- `(bytesRead / fileSize) * 100`, computed exactly over `ℚ`. -/
def pct (fileSize bytesRead : Nat) : ℚ :=
  (bytesRead : ℚ) / (fileSize : ℚ) * 100

/-- `Math.min(fileSize * 0.05, 100MB)`, the progress-report throttle of the
direct-read path (`0.05` taken exactly; the source's binary float differs
from `1/20` only in the 17th decimal, which no claim observes). -/
def progressInterval (fileSize : Nat) : ℚ :=
  min ((fileSize : ℚ) * (5 / 100)) (100 * 1024 * 1024)

/-- Does the direct-read loop report progress after reaching `r2` bytes, the
previous report having been at `lastRep`?  Requires the `fileSize > 0`
callback guard and either a full throttle interval since the last report or
completion. -/
def reportCond (fileSize r2 lastRep : Nat) : Prop :=
  0 < fileSize ∧
    (progressInterval fileSize ≤ ((r2 - lastRep : Nat) : ℚ) ∨ r2 = fileSize)

instance (fileSize r2 lastRep : Nat) : Decidable (reportCond fileSize r2 lastRep) := by
  unfold reportCond
  infer_instance

/-- The direct-read loop (`useDirectRead` path): read up to
`min bufferSize (fileSize - bytesRead)` bytes at offset `bytesRead`, stop on
EOF, absorb each chunk and emit throttled progress reports.  Returns the
byte sequence absorbed by the hash and the list of reported percentages. -/
def directLoop (b fileSize : Nat) (content : List Nat) (r lastRep : Nat) :
    List Nat × List ℚ :=
  if _h : ((content.drop r).take (min b (fileSize - r))).length = 0 then ([], [])
  else
    let chunk := (content.drop r).take (min b (fileSize - r))
    let r2 := r + chunk.length
    let rest := directLoop b fileSize content r2 (if reportCond fileSize r2 lastRep then r2 else lastRep)
    (chunk ++ rest.1,
     (if reportCond fileSize r2 lastRep then [pct fileSize r2] else []) ++ rest.2)
termination_by content.length - r
decreasing_by
  have h1 : ((content.drop r).take (min b (fileSize - r))).length ≤ content.length - r := by
    simp [List.length_take, List.length_drop]
  omega

/-- Progress reports of the stream path: one unthrottled call per `data`
event, each with the running percentage (guarded by `fileSize > 0`). -/
def streamTraceAux (fileSize : Nat) : Nat → List (List Nat) → List ℚ
  | _, [] => []
  | r, c :: cs => pct fileSize (r + c.length) :: streamTraceAux fileSize (r + c.length) cs

/-- All progress reports made by the stream path for a given chunk sequence. -/
def streamTrace (fileSize : Nat) (chunks : List (List Nat)) : List ℚ :=
  if 0 < fileSize then streamTraceAux fileSize 0 chunks else []

/-- The environment of one `calculateMD5` call. `content` is the byte
sequence the positional reads of the direct path deliver; `streamChunks`
are the `data` events the read stream delivers (both before any error). -/
structure HashEnv where
  filePath : String
  statResult : Except String Nat
  content : List Nat
  streamChunks : List (List Nat)
  readError : Option String
  exceeds30Minutes : Bool

/-- `calculateMD5` of the later scanner revision: stat the file, pick the
direct path above the 100MB threshold (no timer is armed there) and the
stream path below it (with the 30-minute timeout).  Returns the digest or
error, paired with the progress reports made. -/
def calculateMD5 (md5 : List Nat → String) (env : HashEnv) :
    Except String String × List ℚ :=
  match env.statResult with
  | .error m => (.error ("Cannot read file stats: " ++ m), [])
  | .ok fileSize =>
    if 100 * 1024 * 1024 < fileSize then
      let dl := directLoop (bufferSizeFor fileSize) fileSize env.content 0 0
      match env.readError with
      | some m => (.error ("Failed to hash file: " ++ m), dl.2)
      | none => (.ok (md5 dl.1), dl.2)
    else
      let tr := streamTrace fileSize env.streamChunks
      if env.exceeds30Minutes then
        (.error ("Timeout: File hashing exceeded 30 minutes for " ++ env.filePath), tr)
      else
        match env.readError with
        | some m => (.error ("Failed to read file stream: " ++ m), tr)
        | none => (.ok (md5 env.streamChunks.flatten), tr)

/-! ### Archive adapters (`extractROMsFromZip` / `From7z` / `FromRar`)

Each adapter is modelled as a function from an environment describing the
archive library's behaviour to the triple
`(result, scratchCreated, scratchLiveAtReturn)`:
`result` is the promise outcome, `scratchCreated` records whether
`fs.mkdtempSync` ran, and `scratchLiveAtReturn` whether the created
scratch directory is still on disk when the promise settles.  `rmSync`
calls are assumed to succeed (disk deletion itself does not fail in the
scenarios the claims quantify over). -/

/-- A ROM member materialised into the scratch directory; only its base
name is observable downstream. -/
structure Extracted where
  name : String
deriving DecidableEq

/-- Behaviour of `yauzl` on one archive: the open callback may yield an
error; otherwise the listed entries arrive in order, some member
read/write streams may fail (those members are skipped), and an `error`
event may replace the `end` event. -/
structure ZipEnv where
  openFail : Option String
  entryNames : List String
  failedWrites : List String
  errorEvent : Option String

/-- `extractROMsFromZip`: `mkdtempSync` runs before `yauzl.open`, so the
scratch directory exists on every path; only the zero-ROM `end` path
removes it, while the open-failure and `error`-event paths reject with the
directory still on disk. -/
def extractROMsFromZip (env : ZipEnv) :
    Except String (List Extracted) × Bool × Bool :=
  match env.openFail with
  | some m => (.error ("Failed to open ZIP archive: " ++ m), true, true)
  | none =>
    match env.errorEvent with
    | some m => (.error ("ZIP extraction error: " ++ m), true, true)
    | none =>
      let exs := (env.entryNames.filter
          (fun n => isRomFile n && !(env.failedWrites.contains n))).map
          (fun n => Extracted.mk (basenameStr n))
      if exs.isEmpty then (.ok [], true, false)
      else (.ok exs, true, true)

/-- Behaviour of `node-7z` on one archive: the listing stream may error,
each listed entry carries its name and whether its attributes mark a
directory, the extraction stream may error, and some expected files may
not be found on disk afterwards. -/
structure SevenEnv where
  listFail : Option String
  entries : List (String × Bool)
  extractFail : Option String
  missingAfterExtract : List String

/-- `extractROMsFrom7z`: the scratch directory is created first and removed
on every failure path and on the zero-ROM paths (in the source the error
branch deletes it and then trips over `rmSync(...).catch`, a `TypeError`
on `undefined`, so the propagated error object differs from the intended
one — the deletion itself has already happened, which is all any claim
observes). -/
def extractROMsFrom7z (env : SevenEnv) :
    Except String (List Extracted) × Bool × Bool :=
  match env.listFail with
  | some m => (.error ("Failed to extract 7Z archive: " ++ m), true, false)
  | none =>
    let romEntries := env.entries.filter (fun e => !e.2 && isRomFile e.1)
    if romEntries.isEmpty then (.ok [], true, false)
    else
      match env.extractFail with
      | some m => (.error ("Failed to extract 7Z archive: " ++ m), true, false)
      | none =>
        let exs := (romEntries.filter
            (fun e => !(env.missingAfterExtract.contains e.1))).map
            (fun e => Extracted.mk (basenameStr e.1))
        if exs.isEmpty then (.ok [], true, false)
        else (.ok exs, true, true)

/-- Behaviour of `node-unrar-js` on one archive: reading or creating the
extractor may fail, the headers list the member names, and a member
extraction/write may fail (which aborts the whole loop). -/
structure RarEnv where
  openFail : Option String
  headers : List String
  writeFail : Option String

/-- `extractROMsFromRar`: scratch directory first; any failure reaches the
`catch`, which removes it before the error propagates (with the same
`rmSync(...).catch` quirk as the 7z adapter). -/
def extractROMsFromRar (env : RarEnv) :
    Except String (List Extracted) × Bool × Bool :=
  match env.openFail with
  | some m => (.error ("Failed to extract RAR archive: " ++ m), true, false)
  | none =>
    let romHeaders := env.headers.filter (fun n => isRomFile n)
    if romHeaders.isEmpty then (.ok [], true, false)
    else
      match env.writeFail with
      | some m => (.error ("Failed to extract RAR archive: " ++ m), true, false)
      | none =>
        (.ok (romHeaders.map (fun n => Extracted.mk (basenameStr n))), true, true)

/-- The adapter chosen for an archive, with its library behaviour
(`extractROMsFromArchive` dispatches on the archive's extension; the
orchestrator only ever reaches it with one of the three supported ones). -/
inductive AdapterEnv where
  | zip (env : ZipEnv)
  | seven (env : SevenEnv)
  | rar (env : RarEnv)

/-- Run the adapter selected by `extractROMsFromArchive`. -/
def runAdapter : AdapterEnv → Except String (List Extracted) × Bool × Bool
  | .zip e => extractROMsFromZip e
  | .seven e => extractROMsFrom7z e
  | .rar e => extractROMsFromRar e

/-! ### Scan orchestrator (`scanDirectory`) -/

/-- Outcome of an `fs.statSync` call on a path. -/
inductive StatOutcome where
  | fail (msg : String)
  | notFile
  | file (size : Nat)

/-- One discovered ROM file with the outcomes of its stat and hash calls
(`filename` is the relative display name the walker produced). -/
structure RomFileEnv where
  filename : String
  path : String
  stat : StatOutcome
  hash : Except String String

/-- One discovered archive with the outcomes of its stat call, its
adapter run, and the stat/hash calls on each extracted member (looked up
by member name). -/
structure ArchiveEnv where
  filename : String
  path : String
  stat : StatOutcome
  adapter : AdapterEnv
  memberStat : String → Except String Nat
  memberHash : String → Except String String

/-- The environment of one `scanDirectory` invocation whose root directory
validation succeeded: the discovered ROM files followed by the discovered
archives, in discovery order. -/
structure ScanEnv where
  romFiles : List RomFileEnv
  archives : List ArchiveEnv

/-- A `ScanResult` record as pushed onto `results` (absent JavaScript
fields are `none`). -/
structure ScanResult where
  filename : String
  path : String
  hash : Option String
  size : Option Nat
  error : Option String
  archiveName : Option String
  romName : Option String
deriving DecidableEq

/-- An error record: `hash: null` and an error message, nothing else. -/
def errRecord (filename path msg : String) : ScanResult :=
  ⟨filename, path, none, none, some msg, none, none⟩

/-- The record pushed for one directly-discovered ROM file. -/
def romRecord (f : RomFileEnv) : ScanResult :=
  match f.stat with
  | .fail m => errRecord f.filename f.path ("Cannot stat file: " ++ m)
  | .notFile => errRecord f.filename f.path "Not a regular file"
  | .file sz =>
    match f.hash with
    | .error m => errRecord f.filename f.path m
    | .ok h => ⟨f.filename, f.path, some h, some sz, none, none, none⟩

/-- The record pushed for one extracted archive member. -/
def memberRecord (a : ArchiveEnv) (e : Extracted) : ScanResult :=
  let dn := a.filename ++ "/" ++ e.name
  match a.memberStat e.name with
  | .error m => errRecord dn a.path ("Cannot stat extracted ROM: " ++ m)
  | .ok sz =>
    match a.memberHash e.name with
    | .error m => errRecord dn a.path m
    | .ok h => ⟨dn, a.path, some h, some sz, none, some a.filename, some e.name⟩

/-- The records pushed while processing one archive. -/
def archiveRecords (a : ArchiveEnv) : List ScanResult :=
  match a.stat with
  | .fail m => [errRecord (a.filename ++ " (archive)") a.path ("Cannot stat archive: " ++ m)]
  | .notFile => [errRecord (a.filename ++ " (archive)") a.path "Not a regular file"]
  | .file _ =>
    match (runAdapter a.adapter).1 with
    | .error m => [errRecord (a.filename ++ " (archive)") a.path m]
    | .ok exs =>
      if exs.isEmpty then
        [errRecord (a.filename ++ " (archive)") a.path "No ROM files found in archive"]
      else exs.map (fun e => memberRecord a e)

/-- All records returned by `scanDirectory`: ROM files first, then the
archives, each contributing its records in order. -/
def scanResults (env : ScanEnv) : List ScanResult :=
  env.romFiles.map romRecord ++ env.archives.flatMap archiveRecords

/-- Scratch-directory bookkeeping for one archive:
`(created, liveAfterAdapter, pushedToCleanupList)`.  The orchestrator
pushes `extractedROMs[0].tempDir` onto `tempDirsToCleanup` exactly when
extraction resolved with a non-empty list. -/
def archiveScratch (a : ArchiveEnv) : Bool × Bool × Bool :=
  match a.stat with
  | .fail _ => (false, false, false)
  | .notFile => (false, false, false)
  | .file _ =>
    let r := runAdapter a.adapter
    let pushed := match r.1 with
      | .ok exs => !exs.isEmpty
      | .error _ => false
    (r.2.1, r.2.2, pushed)

/-- Indices of archives whose scratch directory is still on disk when
`scanDirectory` returns: live after the adapter ran, but never entered
`tempDirsToCleanup`, so the final cleanup loop does not remove it. -/
def scanLeaked (env : ScanEnv) : List Nat :=
  (env.archives.enum.filter
    (fun p => (archiveScratch p.2).2.1 && !(archiveScratch p.2).2.2)).map Prod.fst

/-- The predicate "exactly one of `hash` and `error` is non-null". -/
def goodRecord (r : ScanResult) : Prop :=
  (r.hash ≠ none ∧ r.error = none) ∨ (r.hash = none ∧ r.error ≠ none)

/-- A clean run of `calculateMD5` over a file holding `content`: the stat
reports the true length, the stream delivers exactly the file's bytes, no
read error occurs and the 30-minute mark is not passed. -/
def cleanRead (env : HashEnv) (content : List Nat) : Prop :=
  env.statResult = .ok content.length ∧ env.content = content ∧
  env.streamChunks.flatten = content ∧ env.readError = none ∧
  env.exceeds30Minutes = false

/-! ### Concrete scenario environments used by witnesses and counterexamples -/

/-- The SNES platform entry of the specification's scenario. -/
def snesConsole : Console := ⟨3, "Super Nintendo Entertainment System"⟩

/-- Discovered filenames of the scenario: only `.sfc` files. -/
def snesScenarioFiles : List String := ["Super Mario World.sfc", "Zelda.sfc"]

/-- A scan containing a single successfully hashed ROM file. -/
def c1SampleEnv : ScanEnv :=
  { romFiles := [⟨"mario.sfc", "/roms/mario.sfc", .file 1000, .ok "0123abcd"⟩],
    archives := [] }

/-- A zip archive whose header is corrupt: `yauzl.open` yields an error. -/
def corruptZipEnv : ZipEnv := ⟨some "invalid central directory", [], [], none⟩

/-- The corrupt zip as the only entry of a scan. -/
def corruptZipArchive : ArchiveEnv :=
  { filename := "broken.zip", path := "/roms/broken.zip", stat := .file 2048,
    adapter := .zip corruptZipEnv,
    memberStat := fun n => .error ("no such file: " ++ n),
    memberHash := fun _ => .error "unreachable" }

/-- A scan whose only archive is the corrupt zip. -/
def corruptZipScan : ScanEnv := { romFiles := [], archives := [corruptZipArchive] }

/-- A well-formed zip archive none of whose members is ROM-classified. -/
def noRomZipEnv : ZipEnv := ⟨none, ["readme.txt", "cover.png"], [], none⟩

/-- A file just over the 100MB threshold whose hashing outlives the
30-minute mark: the direct-read path runs with no timer armed. -/
def slowHugeEnv : HashEnv :=
  ⟨"/roms/huge.iso", .ok (100 * 1024 * 1024 + 1),
   List.replicate (100 * 1024 * 1024 + 1) 0, [], none, true⟩

/-- A file whose `fs.promises.stat` call fails. -/
def statFailEnv : HashEnv := ⟨"/roms/missing.gb", .error "ENOENT", [], [], none, false⟩

/-- A small (stream-path) file whose hashing outlives the 30-minute mark. -/
def slowSmallEnv : HashEnv :=
  ⟨"/roms/slow.iso", .ok 1000, List.replicate 1000 0, [], none, true⟩

/-- A small file whose read stream errors mid-file. -/
def readErrEnv : HashEnv := ⟨"/roms/bad.nes", .ok 4, [1, 2, 3, 4], [[1, 2]], some "EIO", false⟩

/-- A zero-byte file: the `fileSize > 0` guard suppresses every progress call. -/
def emptyFileEnv : HashEnv := ⟨"/roms/empty.sfc", .ok 0, [], [], none, false⟩

/-- A two-byte file delivered in two stream chunks. -/
def c5SampleEnv : HashEnv := ⟨"/roms/two.gb", .ok 2, [7, 9], [[7], [9]], none, false⟩

/-- A three-byte file delivered in two chunks. -/
def c6Env1 : HashEnv := ⟨"/roms/a.md", .ok 3, [1, 2, 3], [[1], [2, 3]], none, false⟩

/-- The same three-byte file delivered in a single chunk. -/
def c6Env2 : HashEnv := ⟨"/roms/a.md", .ok 3, [1, 2, 3], [[1, 2, 3]], none, false⟩

/-! ### Lemmas about the read loops -/

theorem bufferSizeFor_pos (s : Nat) : 0 < bufferSizeFor s := by
  unfold bufferSizeFor
  split_ifs <;> norm_num

theorem pct_mono (fileSize : Nat) {r r' : Nat} (h : r ≤ r') :
    pct fileSize r ≤ pct fileSize r' := by
  unfold pct
  rcases Nat.eq_zero_or_pos fileSize with h0 | h0
  · simp [h0]
  · have hf : (0 : ℚ) < (fileSize : ℚ) := by exact_mod_cast h0
    have hr : (r : ℚ) ≤ (r' : ℚ) := by exact_mod_cast h
    gcongr

theorem pct_self (fileSize : Nat) (h : 0 < fileSize) : pct fileSize fileSize = 100 := by
  unfold pct
  have hf : (fileSize : ℚ) ≠ 0 := by exact_mod_cast Nat.pos_iff_ne_zero.mp h
  rw [div_self hf, one_mul]

theorem take_length_take {α : Type} (l : List α) (k : Nat) :
    l.take ((l.take k).length) = l.take k := by
  rw [List.length_take]
  exact List.take_eq_take.2 (by omega)

theorem take_append_drop_length {α : Type} (l : List α) (k : Nat) :
    l.take k ++ l.drop ((l.take k).length) = l := by
  rw [List.length_take]
  rcases Nat.le_total k l.length with h | h
  · rw [Nat.min_eq_left h]
    exact List.take_append_drop k l
  · rw [Nat.min_eq_right h, List.drop_length, List.append_nil]
    exact List.take_of_length_le h

/-- The direct-read loop absorbs exactly the remaining bytes of the file
when the stat size is honest, for every positive buffer size. -/
theorem directLoop_absorb (b : Nat) (content : List Nat) (hb : 0 < b) :
    ∀ fuel r lastRep, content.length - r ≤ fuel →
      (directLoop b content.length content r lastRep).1 = content.drop r := by
  intro fuel
  induction fuel with
  | zero =>
    intro r lastRep hle
    have hd : content.drop r = [] := List.drop_eq_nil_of_le (by omega)
    rw [directLoop, dif_pos (by simp [hd])]
    simp [hd]
  | succ n ih =>
    intro r lastRep hle
    rw [directLoop]
    split
    · rename_i h0
      have hlen : ((content.drop r).take (min b (content.length - r))).length
          = min (min b (content.length - r)) (content.length - r) := by
        simp [List.length_take, List.length_drop]
      rw [hlen] at h0
      have : content.length - r = 0 := by omega
      simp [List.drop_eq_nil_of_le (by omega : content.length ≤ r)]
    · rename_i h0
      simp only
      set chunk := (content.drop r).take (min b (content.length - r)) with hchunk
      have hcl : chunk.length ≤ content.length - r := by
        simp [hchunk, List.length_take, List.length_drop]
      have hrec := ih (r + chunk.length) (if reportCond content.length (r + chunk.length) lastRep then r + chunk.length else lastRep) (by omega)
      rw [hrec]
      have hdd : content.drop (r + chunk.length) = (content.drop r).drop chunk.length := by
        rw [List.drop_drop, Nat.add_comm]
      rw [hdd]
      simp only [hchunk]
      exact take_append_drop_length _ _

/-- Progress reports of the direct-read loop are non-decreasing and all at
least the percentage already reached. -/
theorem directLoop_trace_chain (b fileSize : Nat) (content : List Nat) :
    ∀ fuel r lastRep, content.length - r ≤ fuel →
      List.Chain' (· ≤ ·) (directLoop b fileSize content r lastRep).2 ∧
      ∀ x ∈ (directLoop b fileSize content r lastRep).2, pct fileSize r ≤ x := by
  intro fuel
  induction fuel with
  | zero =>
    intro r lastRep hle
    have hd : content.drop r = [] := List.drop_eq_nil_of_le (by omega)
    rw [directLoop, dif_pos (by simp [hd])]
    simp
  | succ n ih =>
    intro r lastRep hle
    rw [directLoop]
    split
    · simp
    · rename_i h0
      simp only
      set chunk := (content.drop r).take (min b (fileSize - r)) with hchunk
      have hcl : chunk.length ≤ content.length - r := by
        simp [hchunk, List.length_take, List.length_drop]
      have hpos : 0 < chunk.length := Nat.pos_of_ne_zero h0
      have hmono : pct fileSize r ≤ pct fileSize (r + chunk.length) :=
        pct_mono fileSize (by omega)
      by_cases hrep : reportCond fileSize (r + chunk.length) lastRep
      · rw [if_pos hrep, if_pos hrep]
        have hrec := ih (r + chunk.length) (r + chunk.length) (by omega)
        rw [List.singleton_append]
        constructor
        · rw [List.chain'_cons']
          exact ⟨fun y hy => hrec.2 y (List.mem_of_mem_head? hy), hrec.1⟩
        · intro x hx
          rcases List.mem_cons.1 hx with rfl | hx
          · exact hmono
          · exact le_trans hmono (hrec.2 x hx)
      · rw [if_neg hrep, if_neg hrep]
        have hrec := ih (r + chunk.length) lastRep (by omega)
        rw [List.nil_append]
        exact ⟨hrec.1, fun x hx => le_trans hmono (hrec.2 x hx)⟩

/-- With an honest stat size the direct-read loop's final report is exactly
100 percent. -/
theorem directLoop_trace_last (b : Nat) (content : List Nat) (hb : 0 < b) :
    ∀ fuel r lastRep, content.length - r ≤ fuel → r < content.length →
      (directLoop b content.length content r lastRep).2.getLast? = some 100 := by
  intro fuel
  induction fuel with
  | zero => intro r lastRep hle hr; omega
  | succ n ih =>
    intro r lastRep hle hr
    rw [directLoop]
    have hlen : ((content.drop r).take (min b (content.length - r))).length
        = min b (content.length - r) := by
      simp only [List.length_take, List.length_drop]
      omega
    split
    · rename_i h0
      rw [hlen] at h0
      omega
    · rename_i h0
      simp only
      set chunk := (content.drop r).take (min b (content.length - r)) with hchunk
      have hcl : chunk.length = min b (content.length - r) := hlen
      rcases Nat.lt_or_ge (r + chunk.length) content.length with hlt | hge
      · have hrec := ih (r + chunk.length) (if reportCond content.length (r + chunk.length) lastRep then r + chunk.length else lastRep) (by omega) hlt
        have hne : (directLoop b content.length content (r + chunk.length)
            (if reportCond content.length (r + chunk.length) lastRep then r + chunk.length else lastRep)).2 ≠ [] := by
          intro hnil
          rw [hnil] at hrec
          simp at hrec
        rw [List.getLast?_append_of_ne_nil _ hne]
        exact hrec
      · have heq : r + chunk.length = content.length := by
          have : chunk.length ≤ content.length - r := by
            rw [hcl]
            omega
          omega
        have hrep : reportCond content.length (r + chunk.length) lastRep :=
          ⟨by omega, Or.inr heq⟩
        rw [if_pos hrep, if_pos hrep, heq]
        have htail : (directLoop b content.length content content.length content.length).2 = [] := by
          rw [directLoop, dif_pos (by simp)]
        rw [htail]
        simp [pct_self content.length (by omega)]

/-- Stream-path progress reports are non-decreasing and bounded below by the
percentage already reached. -/
theorem streamTraceAux_chain (fileSize : Nat) :
    ∀ (cs : List (List Nat)) (r : Nat),
      List.Chain' (· ≤ ·) (streamTraceAux fileSize r cs) ∧
      ∀ x ∈ streamTraceAux fileSize r cs, pct fileSize r ≤ x := by
  intro cs
  induction cs with
  | nil => intro r; simp [streamTraceAux]
  | cons c cs ih =>
    intro r
    have hrec := ih (r + c.length)
    have hmono : pct fileSize r ≤ pct fileSize (r + c.length) :=
      pct_mono fileSize (by omega)
    unfold streamTraceAux
    constructor
    · rw [List.chain'_cons']
      exact ⟨fun y hy => hrec.2 y (List.mem_of_mem_head? hy), hrec.1⟩
    · intro x hx
      rcases List.mem_cons.1 hx with rfl | hx
      · exact hmono
      · exact le_trans hmono (hrec.2 x hx)

/-- The stream path's final report is the percentage of all delivered bytes. -/
theorem streamTraceAux_last (fileSize : Nat) :
    ∀ (cs : List (List Nat)) (r : Nat), cs ≠ [] →
      (streamTraceAux fileSize r cs).getLast? =
        some (pct fileSize (r + cs.flatten.length)) := by
  intro cs
  induction cs with
  | nil => intro r h; exact absurd rfl h
  | cons c cs ih =>
    intro r _
    unfold streamTraceAux
    rcases eq_or_ne cs [] with rfl | hcs
    · simp [streamTraceAux]
    · have hrec := ih (r + c.length) hcs
      have hne : streamTraceAux fileSize (r + c.length) cs ≠ [] := by
        intro hnil
        rw [hnil] at hrec
        simp at hrec
      rw [show pct fileSize (r + (c :: cs).flatten.length)
            = pct fileSize ((r + c.length) + cs.flatten.length) by
          congr 1
          simp
          omega]
      rw [← hrec]
      rw [show (pct fileSize (r + c.length) :: streamTraceAux fileSize (r + c.length) cs)
            = [pct fileSize (r + c.length)] ++ streamTraceAux fileSize (r + c.length) cs from rfl]
      exact List.getLast?_append_of_ne_nil _ hne

/-! ### Lemmas about the scan records -/

theorem errRecord_good (n p m : String) : goodRecord (errRecord n p m) :=
  Or.inr ⟨rfl, by simp [errRecord]⟩

theorem romRecord_good (f : RomFileEnv) : goodRecord (romRecord f) := by
  unfold romRecord
  rcases f.stat with m | _ | sz
  · exact errRecord_good _ _ _
  · exact errRecord_good _ _ _
  · rcases f.hash with m | h
    · exact errRecord_good _ _ _
    · exact Or.inl ⟨by simp, rfl⟩

theorem memberRecord_good (a : ArchiveEnv) (e : Extracted) :
    goodRecord (memberRecord a e) := by
  unfold memberRecord
  rcases a.memberStat e.name with m | sz
  · exact errRecord_good _ _ _
  · rcases a.memberHash e.name with m | h
    · exact errRecord_good _ _ _
    · exact Or.inl ⟨by simp, rfl⟩

theorem archiveRecords_good (a : ArchiveEnv) (r : ScanResult)
    (hr : r ∈ archiveRecords a) : goodRecord r := by
  unfold archiveRecords at hr
  split at hr
  · rw [List.mem_singleton] at hr
    subst hr
    exact errRecord_good _ _ _
  · rw [List.mem_singleton] at hr
    subst hr
    exact errRecord_good _ _ _
  · split at hr
    · rw [List.mem_singleton] at hr
      subst hr
      exact errRecord_good _ _ _
    · rename_i exs heq
      by_cases hexs : exs.isEmpty = true
      · rw [if_pos hexs, List.mem_singleton] at hr
        subst hr
        exact errRecord_good _ _ _
      · rw [if_neg hexs, List.mem_map] at hr
        rcases hr with ⟨e, -, rfl⟩
        exact memberRecord_good a e

/-! ### Lemmas about `calculateMD5` as a whole -/

/-- The progress trace of `calculateMD5` depends only on the stat result and
the bytes delivered, not on errors or the timeout. -/
theorem calculateMD5_trace (md5 : List Nat → String) (env : HashEnv) :
    (calculateMD5 md5 env).2 =
      match env.statResult with
      | .error _ => []
      | .ok fileSize =>
        if 100 * 1024 * 1024 < fileSize then
          (directLoop (bufferSizeFor fileSize) fileSize env.content 0 0).2
        else streamTrace fileSize env.streamChunks := by
  unfold calculateMD5
  rcases env.statResult with m | s
  · rfl
  · simp only
    by_cases hgt : 100 * 1024 * 1024 < s
    · rw [if_pos hgt, if_pos hgt]
      rcases env.readError with - | m <;> rfl
    · rw [if_neg hgt, if_neg hgt]
      rcases env.exceeds30Minutes with - | -
      · rcases env.readError with - | m <;> rfl
      · rfl

/-- Every progress trace `calculateMD5` can produce is non-decreasing. -/
theorem calculateMD5_trace_chain (md5 : List Nat → String) (env : HashEnv) :
    List.Chain' (· ≤ ·) (calculateMD5 md5 env).2 := by
  rw [calculateMD5_trace]
  rcases env.statResult with m | s
  · simp
  · simp only
    by_cases hgt : 100 * 1024 * 1024 < s
    · rw [if_pos hgt]
      exact (directLoop_trace_chain (bufferSizeFor s) s env.content
        env.content.length 0 0 (by omega)).1
    · rw [if_neg hgt]
      unfold streamTrace
      by_cases hs : 0 < s
      · rw [if_pos hs]
        exact (streamTraceAux_chain s env.streamChunks 0).1
      · rw [if_neg hs]
        simp

/-- A clean run returns the digest of exactly the file's byte content,
whichever read path the size selects. -/
theorem calculateMD5_clean (md5 : List Nat → String) (env : HashEnv)
    (content : List Nat) (h : cleanRead env content) :
    (calculateMD5 md5 env).1 = .ok (md5 content) := by
  obtain ⟨hstat, hcont, hchunks, hre, hex⟩ := h
  have habs : (directLoop (bufferSizeFor content.length) content.length content 0 0).1
      = content := by
    rw [directLoop_absorb (bufferSizeFor content.length) content
      (bufferSizeFor_pos _) content.length 0 0 (by omega)]
    exact List.drop_zero content
  unfold calculateMD5
  rw [hstat, hcont, hre, hex]
  simp only
  by_cases hgt : 100 * 1024 * 1024 < content.length
  · rw [if_pos hgt]
    show Except.ok
        (md5 (directLoop (bufferSizeFor content.length) content.length content 0 0).1)
      = Except.ok (md5 content)
    rw [habs]
  · rw [if_neg hgt]
    show Except.ok (md5 env.streamChunks.flatten) = Except.ok (md5 content)
    rw [hchunks]

/-! ### Disjointness of the extension tables -/

theorem rom_archive_not_both (s : String) (h : memStr s ROM_EXTENSIONS = true) :
    memStr s ARCHIVE_EXTENSIONS = false := by
  have hall : ROM_EXTENSIONS.all (fun t => !(memStr t ARCHIVE_EXTENSIONS)) = true := by
    decide
  unfold memStr at h
  rcases List.any_eq_true.1 h with ⟨t, ht, hst⟩
  have hs : s = t := of_decide_eq_true hst
  have hnot := List.all_eq_true.1 hall t ht
  rw [hs]
  simpa using hnot

/-! ### The claims -/

/-- C1: every `ScanResult` record that `scanDirectory` returns carries
exactly one non-null field among `hash` and `error` — a record with a
digest has no error and a record with an error has no digest, on every
code path (ROM stat/hash failures, archive stat/extraction failures,
empty archives, member stat/hash failures and all successes). -/
theorem c1_exactly_one_of_hash_error (env : ScanEnv) (r : ScanResult)
    (hr : r ∈ scanResults env) :
    (r.hash ≠ none ∧ r.error = none) ∨ (r.hash = none ∧ r.error ≠ none) := by
  rcases List.mem_append.1 hr with h | h
  · rcases List.mem_map.1 h with ⟨f, -, rfl⟩
    exact romRecord_good f
  · rcases List.mem_flatMap.1 h with ⟨a, -, ha⟩
    exact archiveRecords_good a r ha

/-- Witness for C1 at a concrete one-ROM scan. -/
theorem c1_witness :
    (⟨"mario.sfc", "/roms/mario.sfc", some "0123abcd", some 1000, none, none, none⟩ : ScanResult)
        ∈ scanResults c1SampleEnv ∧
      (((⟨"mario.sfc", "/roms/mario.sfc", some "0123abcd", some 1000, none, none, none⟩ : ScanResult).hash ≠ none ∧
          (⟨"mario.sfc", "/roms/mario.sfc", some "0123abcd", some 1000, none, none, none⟩ : ScanResult).error = none) ∨
        ((⟨"mario.sfc", "/roms/mario.sfc", some "0123abcd", some 1000, none, none, none⟩ : ScanResult).hash = none ∧
          (⟨"mario.sfc", "/roms/mario.sfc", some "0123abcd", some 1000, none, none, none⟩ : ScanResult).error ≠ none)) :=
  ⟨by decide, c1_exactly_one_of_hash_error c1SampleEnv _ (by decide)⟩

/-- C2 (code bug, evaluated at the failing input): scanning a directory
whose only archive is a zip with a corrupt header ends with the zip
adapter's scratch directory still on disk — it was created before
`yauzl.open`, the rejection path never removes it, and it never reaches
`tempDirsToCleanup`, so the final cleanup loop cannot delete it.  The scan
itself degrades to a single error record as designed. -/
theorem c2_corrupt_zip_scratch_leak :
    scanLeaked corruptZipScan = [0] ∧
    scanResults corruptZipScan =
      [errRecord "broken.zip (archive)" "/roms/broken.zip"
        "Failed to open ZIP archive: invalid central directory"] :=
  ⟨rfl, rfl⟩

/-- C3 (counterexample): a file just above the 100MB threshold whose
hashing is still running at the 30-minute mark is not failed with a
Timeout — the direct-read path arms no timer and returns a digest, so
"calculateMD5 fails with Timeout if it has not completed within 30
minutes" is false for this input. -/
theorem c3_counterexample :
    slowHugeEnv.exceeds30Minutes = true ∧
    slowHugeEnv.content.length = 100 * 1024 * 1024 + 1 ∧
    ((calculateMD5 (fun _ => "digest") slowHugeEnv).1).isOk = true :=
  ⟨rfl,
   by
    show (List.replicate (100 * 1024 * 1024 + 1) 0).length = 100 * 1024 * 1024 + 1
    rw [List.length_replicate],
   rfl⟩

/-- C3 (amended): stat failures reject with a stat error, the 30-minute
Timeout fires on the stream path (files of at most 100MB), read errors
reject, and success occurs only with no read error and either no timeout
or the direct-read path — but above the 100MB threshold the direct-read
path enforces no timeout at all and succeeds however long it runs. -/
theorem c3_failure_modes (md5 : List Nat → String) (env : HashEnv) :
    (∀ m, env.statResult = .error m →
      (calculateMD5 md5 env).1 = .error ("Cannot read file stats: " ++ m)) ∧
    (∀ s, env.statResult = .ok s → s ≤ 100 * 1024 * 1024 →
      env.exceeds30Minutes = true →
      (calculateMD5 md5 env).1 =
        .error ("Timeout: File hashing exceeded 30 minutes for " ++ env.filePath)) ∧
    (∀ s m, env.statResult = .ok s → env.readError = some m →
      env.exceeds30Minutes = false → ((calculateMD5 md5 env).1).isOk = false) ∧
    (∀ d, (calculateMD5 md5 env).1 = .ok d →
      env.readError = none ∧
      (env.exceeds30Minutes = false ∨ ∃ s, env.statResult = .ok s ∧ 100 * 1024 * 1024 < s)) ∧
    (∀ s, env.statResult = .ok s → 100 * 1024 * 1024 < s → env.readError = none →
      ((calculateMD5 md5 env).1).isOk = true) := by
  refine ⟨?_, ?_, ?_, ?_, ?_⟩
  · intro m hm
    unfold calculateMD5
    rw [hm]
  · intro s hs hle hex
    unfold calculateMD5
    rw [hs, hex]
    simp only
    rw [if_neg (by omega)]
    rfl
  · intro s m hs hre hex
    unfold calculateMD5
    rw [hs, hre, hex]
    simp only
    by_cases hgt : 100 * 1024 * 1024 < s
    · rw [if_pos hgt]
      rfl
    · rw [if_neg hgt]
      rfl
  · intro d hd
    unfold calculateMD5 at hd
    rcases hs : env.statResult with m | s
    · rw [hs] at hd
      simp at hd
    · rw [hs] at hd
      simp only at hd
      by_cases hgt : 100 * 1024 * 1024 < s
      · rw [if_pos hgt] at hd
        rcases hre : env.readError with - | m
        · exact ⟨rfl, Or.inr ⟨s, rfl, hgt⟩⟩
        · rw [hre] at hd
          simp at hd
      · rw [if_neg hgt] at hd
        rcases hex : env.exceeds30Minutes with - | -
        · rcases hre : env.readError with - | m
          · exact ⟨rfl, Or.inl rfl⟩
          · rw [hex, hre] at hd
            simp at hd
        · rw [hex] at hd
          simp at hd
  · intro s hs hgt hre
    unfold calculateMD5
    rw [hs, hre]
    simp only
    rw [if_pos hgt]
    rfl

/-- Witness for C3 at concrete inputs: a stat failure, a small slow file
that does time out, and a mid-file read error. -/
theorem c3_witness :
    (calculateMD5 (fun _ => "d") statFailEnv).1 = .error "Cannot read file stats: ENOENT" ∧
    (calculateMD5 (fun _ => "d") slowSmallEnv).1 =
      .error ("Timeout: File hashing exceeded 30 minutes for " ++ slowSmallEnv.filePath) ∧
    ((calculateMD5 (fun _ => "d") readErrEnv).1).isOk = false :=
  ⟨(c3_failure_modes (fun _ => "d") statFailEnv).1 "ENOENT" rfl,
   (c3_failure_modes (fun _ => "d") slowSmallEnv).2.1 1000 rfl (by norm_num) rfl,
   (c3_failure_modes (fun _ => "d") readErrEnv).2.2.1 4 "EIO" rfl rfl rfl⟩

/-- C4 (code bug, evaluated at the failing input): the zip adapter creates
its scratch directory before opening the archive, and when `yauzl.open`
reports a corrupt archive it rejects without deleting the directory — the
failure is propagated with the scratch directory still live, contradicting
"the adapter deletes that scratch directory before propagating the
failure" (the 7z and rar adapters do delete theirs in their catch
blocks). -/
theorem c4_zip_open_failure_leak :
    (extractROMsFromZip corruptZipEnv).1 =
      .error "Failed to open ZIP archive: invalid central directory" ∧
    (extractROMsFromZip corruptZipEnv).2.1 = true ∧
    (extractROMsFromZip corruptZipEnv).2.2 = true :=
  ⟨rfl, rfl, rfl⟩

/-- C5 (counterexample): hashing a zero-byte file with a progress callback
supplied makes no progress call at all — the `fileSize > 0` guard
suppresses every report, so no final 100% completion call is made, and the
hash still succeeds. -/
theorem c5_counterexample :
    (calculateMD5 (fun _ => "d41d8cd98f00b204e9800998ecf8427e") emptyFileEnv).2 = [] ∧
    ((calculateMD5 (fun _ => "d41d8cd98f00b204e9800998ecf8427e") emptyFileEnv).1).isOk = true :=
  ⟨rfl, rfl⟩

/-- C5 (amended): progress percentages are non-decreasing on every run,
and for a file of at least one byte whose stat size matches the bytes
delivered the final report is exactly 100% on both read paths; for a
zero-byte file no call is made at all. -/
theorem c5_progress_monotone_final (md5 : List Nat → String) (env : HashEnv)
    (hstat : env.statResult = .ok env.content.length)
    (hchunks : env.streamChunks.flatten = env.content)
    (hne : env.content ≠ []) :
    List.Chain' (· ≤ ·) (calculateMD5 md5 env).2 ∧
    (calculateMD5 md5 env).2.getLast? = some 100 ∧
    ∀ (md5' : List Nat → String) (env' : HashEnv),
      List.Chain' (· ≤ ·) (calculateMD5 md5' env').2 := by
  have hpos : 0 < env.content.length := List.length_pos.2 hne
  refine ⟨calculateMD5_trace_chain md5 env, ?_, fun md5' env' => calculateMD5_trace_chain md5' env'⟩
  rw [calculateMD5_trace, hstat]
  simp only
  by_cases hgt : 100 * 1024 * 1024 < env.content.length
  · rw [if_pos hgt]
    exact directLoop_trace_last (bufferSizeFor env.content.length) env.content
      (bufferSizeFor_pos _) env.content.length 0 0 (by omega) hpos
  · rw [if_neg hgt]
    unfold streamTrace
    rw [if_pos hpos]
    have hcs : env.streamChunks ≠ [] := by
      intro hnil
      rw [hnil] at hchunks
      exact hne (hchunks.symm.trans rfl)
    rw [streamTraceAux_last env.content.length env.streamChunks 0 hcs]
    rw [show (0 + env.streamChunks.flatten.length) = env.content.length by
      rw [hchunks]
      omega]
    rw [pct_self env.content.length hpos]

/-- Witness for C5 at a concrete two-byte file streamed in two chunks. -/
theorem c5_witness :
    List.Chain' (· ≤ ·) (calculateMD5 (fun _ => "d") c5SampleEnv).2 ∧
    (calculateMD5 (fun _ => "d") c5SampleEnv).2.getLast? = some 100 :=
  ⟨(c5_progress_monotone_final (fun _ => "d") c5SampleEnv rfl rfl (by decide)).1,
   (c5_progress_monotone_final (fun _ => "d") c5SampleEnv rfl rfl (by decide)).2.1⟩

/-- C6: `calculateMD5` is deterministic and chunk-independent — any clean
run over the same byte content yields the same digest, the direct-read
loop absorbs exactly the file's bytes for every positive buffer size, and
therefore the direct path and the stream path feed the digest function the
same sequence. -/
theorem c6_digest_chunk_independent (md5 : List Nat → String) (content : List Nat)
    (e1 e2 : HashEnv) (h1 : cleanRead e1 content) (h2 : cleanRead e2 content)
    (b1 b2 : Nat) (hb1 : 0 < b1) (hb2 : 0 < b2) :
    (calculateMD5 md5 e1).1 = .ok (md5 content) ∧
    (calculateMD5 md5 e1).1 = (calculateMD5 md5 e2).1 ∧
    (directLoop b1 content.length content 0 0).1 = content ∧
    (directLoop b1 content.length content 0 0).1 =
      (directLoop b2 content.length content 0 0).1 := by
  have k1 := calculateMD5_clean md5 e1 content h1
  have k2 := calculateMD5_clean md5 e2 content h2
  have d1 : (directLoop b1 content.length content 0 0).1 = content := by
    rw [directLoop_absorb b1 content hb1 content.length 0 0 (by omega)]
    exact List.drop_zero content
  have d2 : (directLoop b2 content.length content 0 0).1 = content := by
    rw [directLoop_absorb b2 content hb2 content.length 0 0 (by omega)]
    exact List.drop_zero content
  exact ⟨k1, k1.trans k2.symm, d1, d1.trans d2.symm⟩

/-- Witness for C6 at a three-byte file, two chunkings, two buffer sizes. -/
theorem c6_witness :
    (calculateMD5 (fun _ => "h") c6Env1).1 = .ok "h" ∧
    (calculateMD5 (fun _ => "h") c6Env1).1 = (calculateMD5 (fun _ => "h") c6Env2).1 ∧
    (directLoop 1 3 [1, 2, 3] 0 0).1 = [1, 2, 3] ∧
    (directLoop 1 3 [1, 2, 3] 0 0).1 = (directLoop 2 3 [1, 2, 3] 0 0).1 :=
  c6_digest_chunk_independent (fun _ => "h") [1, 2, 3] c6Env1 c6Env2
    ⟨rfl, rfl, rfl, rfl, rfl⟩ ⟨rfl, rfl, rfl, rfl, rfl⟩ 1 2 (by norm_num) (by norm_num)

/-- C7 (counterexample): an archive with zero ROM-classified members does
not leave "no ScratchDirectory created" — the zip adapter calls
`mkdtempSync` before even opening the archive, so a scratch directory is
created (and then deleted) although the result is the empty list. -/
theorem c7_counterexample :
    (extractROMsFromZip noRomZipEnv).2.1 = true ∧
    (extractROMsFromZip noRomZipEnv).1 = .ok [] ∧
    (extractROMsFromZip noRomZipEnv).2.2 = false :=
  ⟨rfl, rfl, rfl⟩

/-- C7 (amended): for every archive with zero ROM-classified members, each
adapter returns the empty sequence and leaves no scratch directory behind;
a scratch directory is however created eagerly in all three adapters and
deleted again before returning. -/
theorem c7_zero_rom_members (z : ZipEnv) (s : SevenEnv) (r : RarEnv)
    (hz1 : z.openFail = none) (hz2 : z.errorEvent = none)
    (hz : ∀ n ∈ z.entryNames, isRomFile n = false)
    (hs1 : s.listFail = none)
    (hs : ∀ e ∈ s.entries, e.2 = false → isRomFile e.1 = false)
    (hr1 : r.openFail = none)
    (hr : ∀ n ∈ r.headers, isRomFile n = false) :
    extractROMsFromZip z = (.ok [], true, false) ∧
    extractROMsFrom7z s = (.ok [], true, false) ∧
    extractROMsFromRar r = (.ok [], true, false) := by
  refine ⟨?_, ?_, ?_⟩
  · unfold extractROMsFromZip
    rw [hz1, hz2]
    have hf : z.entryNames.filter (fun n => isRomFile n && !(z.failedWrites.contains n)) = [] := by
      rw [List.filter_eq_nil_iff]
      intro n hn
      simp [hz n hn]
    rw [hf]
    rfl
  · unfold extractROMsFrom7z
    rw [hs1]
    have hf : s.entries.filter (fun e => !e.2 && isRomFile e.1) = [] := by
      rw [List.filter_eq_nil_iff]
      intro e he
      rcases hb : e.2 with - | -
      · simp [hs e he hb]
      · simp [hb]
    rw [hf]
    rfl
  · unfold extractROMsFromRar
    rw [hr1]
    have hf : r.headers.filter (fun n => isRomFile n) = [] := by
      rw [List.filter_eq_nil_iff]
      intro n hn
      simp [hr n hn]
    rw [hf]
    rfl

/-- Witness for C7 at concrete no-ROM archives of each format. -/
theorem c7_witness :
    extractROMsFromZip ⟨none, ["readme.txt"], [], none⟩ = (.ok [], true, false) ∧
    extractROMsFrom7z ⟨none, [("docs", true), ("a.txt", false)], none, []⟩ = (.ok [], true, false) ∧
    extractROMsFromRar ⟨none, ["b.txt"], none⟩ = (.ok [], true, false) :=
  c7_zero_rom_members ⟨none, ["readme.txt"], [], none⟩
    ⟨none, [("docs", true), ("a.txt", false)], none, []⟩ ⟨none, ["b.txt"], none⟩
    rfl rfl (by decide) rfl (by decide) rfl (by decide)

/-- C8 (counterexample): in the specification's scenario — folder "SNES
Collection", only `.sfc` files, platform list containing the SNES entry —
the folder-name phase returns nothing: "snes collection" and "super
nintendo entertainment system" contain each other in neither direction,
and for the keywords "nes"/"snes" present in the folder name the console
name contains neither the keyword nor does the keyword contain the first
word "super".  The suggestion is still the id-3 platform, so the claim's
"via the folder-name phase" is what fails. -/
theorem c8_counterexample :
    folderPhase "SNES Collection" [snesConsole] = none ∧
    suggestConsole "SNES Collection" (some snesScenarioFiles) (some [snesConsole]) =
      some snesConsole :=
  ⟨rfl, rfl⟩

/-- C8 (amended): `suggestConsole` on the scenario returns the id-3 SNES
platform, but via the extension-majority fallback (phase 2): the folder
phase yields nothing and the `.sfc` majority maps to candidate names that
the SNES platform name matches directly. -/
theorem c8_snes_scenario :
    suggestConsole "SNES Collection" (some snesScenarioFiles) (some [snesConsole]) =
      some snesConsole ∧
    folderPhase "SNES Collection" [snesConsole] = none ∧
    extensionPhase snesScenarioFiles [snesConsole] = some snesConsole :=
  ⟨rfl, rfl, rfl⟩

/-- C9: classification is a function of the lowercased final extension
alone, each filename falls in exactly one of ROM / ARCHIVE / IGNORED, and
the ROM and ARCHIVE extension tables are disjoint, so no filename is both
a ROM and an archive. -/
theorem c9_classifier_partition (f g : String) :
    (isRomFile f = true → isArchiveFile f = false) ∧
    (classify f = .rom ↔ isRomFile f = true) ∧
    (classify f = .archive ↔ (isRomFile f = false ∧ isArchiveFile f = true)) ∧
    (classify f = .ignored ↔ (isRomFile f = false ∧ isArchiveFile f = false)) ∧
    (extLower f = extLower g → classify f = classify g) := by
  have hdisj : isRomFile f = true → isArchiveFile f = false := fun h =>
    rom_archive_not_both (extLower f) h
  have hiffs : (classify f = .rom ↔ isRomFile f = true) ∧
      (classify f = .archive ↔ (isRomFile f = false ∧ isArchiveFile f = true)) ∧
      (classify f = .ignored ↔ (isRomFile f = false ∧ isArchiveFile f = false)) := by
    cases hr : isRomFile f <;> cases ha : isArchiveFile f <;>
      simp [classify, hr, ha]
  refine ⟨hdisj, hiffs.1, hiffs.2.1, hiffs.2.2, ?_⟩
  intro he
  unfold classify isRomFile isArchiveFile
  rw [he]

/-- Witness for C9 at a ROM filename and a case-variant of its extension. -/
theorem c9_witness :
    isArchiveFile "mario.sfc" = false ∧
    classify "mario.sfc" = FileClass.rom ∧
    classify "mario.sfc" = classify "party.SFC" :=
  ⟨(c9_classifier_partition "mario.sfc" "party.SFC").1 (by decide),
   ((c9_classifier_partition "mario.sfc" "party.SFC").2.1).2 (by decide),
   (c9_classifier_partition "mario.sfc" "party.SFC").2.2.2.2 (by decide)⟩

/-- C10: `suggestConsole` returns null whenever the ROM filename list is
null or empty or the console list is null or empty, for every directory
argument — the guard runs before the folder-name phase, so even a folder
name that would match cannot produce a suggestion. -/
theorem c10_empty_inputs_yield_none (dir : String) (rf : Option (List String))
    (cs : Option (List Console))
    (h : rf = none ∨ rf = some [] ∨ cs = none ∨ cs = some []) :
    suggestConsole dir rf cs = none := by
  rcases h with rfl | rfl | rfl | rfl
  · rfl
  · rcases cs with - | cs'
    · rfl
    · simp [suggestConsole]
  · rcases rf with - | rf'
    · rfl
    · rfl
  · rcases rf with - | rf'
    · rfl
    · simp [suggestConsole]

/-- Witness for C10: an empty filename list suppresses the suggestion even
though the console list holds the SNES entry. -/
theorem c10_witness :
    suggestConsole "SNES Collection" (some []) (some [snesConsole]) = none :=
  c10_empty_inputs_yield_none "SNES Collection" (some []) (some [snesConsole])
    (Or.inr (Or.inl rfl))

end RetroHash
